import Mathlib

/-!
Verification of the Annalink blockchain core against its specification.

This file gives a shallow embedding of the Python sources
(`core/transaction.py`, `annalink/core/block.py`, `annalink/core/blockchain.py`,
`core/consensus.py`, `annalink/networking/node.py`) and proves or refutes the
frozen claims about them.  Machine integers are modelled as `Nat`, Python
floats as `ℚ` (every numeric value appearing in the repository is a short
decimal fraction, where the two agree exactly), fallible operations return
`Option`, and `time.time()` is passed in explicitly as a `now` parameter.
-/

namespace Annalink

/-! ### Bytes, hex and UTF-8 helpers (models of Python `bytes`, `bytes.hex`,
`bytes.fromhex` and `str.encode`) -/

/-- One byte, kept as a `Nat` below 256. -/
abbrev Byte := Nat

/-- Big-endian interpretation of a byte string as a number
(Python `int.from_bytes(b, "big")` / ecdsa `string_to_number`). -/
def bytesToNatBE (bs : List Byte) : Nat :=
  bs.foldl (fun acc b => acc * 256 + b) 0

/-- Big-endian serialisation of `n` into `k` bytes. -/
def natToBytesBE (k n : Nat) : List Byte :=
  (List.range k).map (fun i => (n >>> (8 * (k - 1 - i))) % 256)

/-- Lowercase hex digit for a nibble (as in Python `bytes.hex()`). -/
def hexDigit (n : Nat) : Char :=
  if n < 10 then Char.ofNat (48 + n) else Char.ofNat (87 + n)

/-- Fixed-width lowercase hex rendering of a number. -/
def natToHexChars (digits n : Nat) : List Char :=
  (List.range digits).map (fun i => hexDigit ((n >>> (4 * (digits - 1 - i))) % 16))

/-- Value of one hex character, `none` when the character is not a hex digit. -/
def hexVal (c : Char) : Option Nat :=
  let n := c.toNat
  if 48 ≤ n ∧ n ≤ 57 then some (n - 48)
  else if 97 ≤ n ∧ n ≤ 102 then some (n - 87)
  else if 65 ≤ n ∧ n ≤ 70 then some (n - 55)
  else none

/-- Model of Python `bytes.fromhex`: pairs of hex digits, spaces between
pairs skipped, anything else (including an odd trailing digit) fails. -/
def hexDecodeChars : List Char → Option (List Byte)
  | [] => some []
  | ' ' :: rest => hexDecodeChars rest
  | c1 :: c2 :: rest => do
      let h ← hexVal c1
      let l ← hexVal c2
      let t ← hexDecodeChars rest
      pure ((16 * h + l) :: t)
  | [_] => none

/-- Model of Python `bytes.fromhex` on a string. -/
def hexDecode (s : String) : Option (List Byte) :=
  hexDecodeChars s.data

/-- UTF-8 encoding of a single character (Python `str.encode()`). -/
def utf8EncodeChar (c : Char) : List Byte :=
  let n := c.toNat
  if n < 128 then [n]
  else if n < 2048 then [192 + n / 64, 128 + n % 64]
  else if n < 65536 then [224 + n / 4096, 128 + (n / 64) % 64, 128 + n % 64]
  else [240 + n / 262144, 128 + (n / 4096) % 64, 128 + (n / 64) % 64, 128 + n % 64]

/-- UTF-8 encoding of a string (Python `str.encode()`). -/
def utf8Bytes (s : String) : List Byte :=
  (s.data.map utf8EncodeChar).flatten

/-! ### SHA-256 (model of `hashlib.sha256`) -/

/-- Truncation to a 32-bit word. -/
def w32 (x : Nat) : Nat := x % 4294967296

/-- Right rotation of a 32-bit word. -/
def rotr32 (n x : Nat) : Nat := w32 ((x >>> n) ||| (x <<< (32 - n)))

/-- SHA-256 round constants. -/
def sha256K : List Nat :=
  [1116352408, 1899447441, 3049323471, 3921009573, 961987163, 1508970993,
   2453635748, 2870763221, 3624381080, 310598401, 607225278, 1426881987,
   1925078388, 2162078206, 2614888103, 3248222580, 3835390401, 4022224774,
   264347078, 604807628, 770255983, 1249150122, 1555081692, 1996064986,
   2554220882, 2821834349, 2952996808, 3210313671, 3336571891, 3584528711,
   113926993, 338241895, 666307205, 773529912, 1294757372, 1396182291,
   1695183700, 1986661051, 2177026350, 2456956037, 2730485921, 2820302411,
   3259730800, 3345764771, 3516065817, 3600352804, 4094571909, 275423344,
   430227734, 506948616, 659060556, 883997877, 958139571, 1322822218,
   1537002063, 1747873779, 1955562222, 2024104815, 2227730452, 2361852424,
   2428436474, 2756734187, 3204031479, 3329325298]

/-- SHA-256 initial hash state. -/
def sha256H0 : List Nat :=
  [1779033703, 3144134277, 1013904242, 2773480762,
   1359893119, 2600822924, 528734635, 1541459225]

/-- Standard SHA-2 padding: `0x80`, zeros to 56 mod 64, 8-byte bit length. -/
def sha256Pad (msg : List Byte) : List Byte :=
  let len := msg.length
  let zeros := (119 - (len % 64)) % 64
  msg ++ [128] ++ List.replicate zeros 0 ++ natToBytesBE 8 (8 * len)

/-- Splits a byte list into 64-byte chunks (fuel-driven for structural
recursion; the fuel is instantiated with the list length). -/
def chunksOf64 : Nat → List Byte → List (List Byte)
  | 0, _ => []
  | _, [] => []
  | f + 1, l => l.take 64 :: chunksOf64 f (l.drop 64)

/-- Groups bytes into big-endian 32-bit words (fuel-driven). -/
def bytesToWords : Nat → List Byte → List Nat
  | 0, _ => []
  | _, [] => []
  | f + 1, l => bytesToNatBE (l.take 4) :: bytesToWords f (l.drop 4)

/-- One message-schedule extension step: appends the next `w` value. -/
def sha256ExtendStep (ws : List Nat) : List Nat :=
  let i := ws.length
  let w15 := ws.getD (i - 15) 0
  let w2 := ws.getD (i - 2) 0
  let w16 := ws.getD (i - 16) 0
  let w7 := ws.getD (i - 7) 0
  let s0 := (rotr32 7 w15) ^^^ (rotr32 18 w15) ^^^ (w15 >>> 3)
  let s1 := (rotr32 17 w2) ^^^ (rotr32 19 w2) ^^^ (w2 >>> 10)
  ws ++ [w32 (w16 + s0 + w7 + s1)]

/-- Iterated message-schedule extension. -/
def sha256Extend : Nat → List Nat → List Nat
  | 0, ws => ws
  | f + 1, ws => sha256Extend f (sha256ExtendStep ws)

/-- SHA-256 compression rounds over the zipped constants/schedule. -/
def sha256Rounds : List (Nat × Nat) → List Nat → List Nat
  | [], st => st
  | (k, w) :: rest, st =>
    let a := st.getD 0 0
    let b := st.getD 1 0
    let c := st.getD 2 0
    let d := st.getD 3 0
    let e := st.getD 4 0
    let f := st.getD 5 0
    let g := st.getD 6 0
    let hh := st.getD 7 0
    let bigS1 := (rotr32 6 e) ^^^ (rotr32 11 e) ^^^ (rotr32 25 e)
    let ch := (e &&& f) ^^^ ((e ^^^ 4294967295) &&& g)
    let t1 := w32 (hh + bigS1 + ch + k + w)
    let bigS0 := (rotr32 2 a) ^^^ (rotr32 13 a) ^^^ (rotr32 22 a)
    let maj := (a &&& b) ^^^ (a &&& c) ^^^ (b &&& c)
    let t2 := w32 (bigS0 + maj)
    sha256Rounds rest [w32 (t1 + t2), a, b, c, w32 (d + t1), e, f, g]

/-- Folds the compression function over all chunks. -/
def sha256Chunks : List (List Byte) → List Nat → List Nat
  | [], hs => hs
  | c :: rest, hs =>
      let ws := sha256Extend 48 (bytesToWords 16 c)
      let out := sha256Rounds (sha256K.zip ws) hs
      sha256Chunks rest (List.zipWith (fun x y => w32 (x + y)) hs out)

/-- SHA-256 digest of a byte string, as eight 32-bit words. -/
def sha256Digest (msg : List Byte) : List Nat :=
  let padded := sha256Pad msg
  sha256Chunks (chunksOf64 padded.length padded) sha256H0

/-- Model of `hashlib.sha256(msg).hexdigest()`: lowercase hex, 64 characters. -/
def sha256Hex (msg : List Byte) : String :=
  String.mk (((sha256Digest msg).map (natToHexChars 8)).flatten)

/-! ### SHA-1 (model of `hashlib.sha1`, the default hash of the `ecdsa`
library's `sign`/`verify`) -/

/-- Left rotation of a 32-bit word. -/
def rotl32 (n x : Nat) : Nat := w32 ((x <<< n) ||| (x >>> (32 - n)))

/-- SHA-1 initial hash state. -/
def sha1H0 : List Nat :=
  [1732584193, 4023233417, 2562383102, 271733878, 3285377520]

/-- One SHA-1 message-schedule extension step. -/
def sha1ExtendStep (ws : List Nat) : List Nat :=
  let i := ws.length
  let v := (ws.getD (i - 3) 0) ^^^ (ws.getD (i - 8) 0) ^^^
           (ws.getD (i - 14) 0) ^^^ (ws.getD (i - 16) 0)
  ws ++ [rotl32 1 v]

/-- Iterated SHA-1 message-schedule extension. -/
def sha1Extend : Nat → List Nat → List Nat
  | 0, ws => ws
  | f + 1, ws => sha1Extend f (sha1ExtendStep ws)

/-- SHA-1 compression rounds over the indexed schedule. -/
def sha1Rounds : List (Nat × Nat) → List Nat → List Nat
  | [], st => st
  | (i, w) :: rest, st =>
    let a := st.getD 0 0
    let b := st.getD 1 0
    let c := st.getD 2 0
    let d := st.getD 3 0
    let e := st.getD 4 0
    let fk : Nat × Nat :=
      if i < 20 then ((b &&& c) ||| ((b ^^^ 4294967295) &&& d), 1518500249)
      else if i < 40 then (b ^^^ c ^^^ d, 1859775393)
      else if i < 60 then ((b &&& c) ||| (b &&& d) ||| (c &&& d), 2400959708)
      else (b ^^^ c ^^^ d, 3395469782)
    let temp := w32 ((rotl32 5 a) + fk.1 + e + fk.2 + w)
    sha1Rounds rest [temp, a, rotl32 30 b, c, d]

/-- Folds the SHA-1 compression function over all chunks. -/
def sha1Chunks : List (List Byte) → List Nat → List Nat
  | [], hs => hs
  | c :: rest, hs =>
      let ws := sha1Extend 64 (bytesToWords 16 c)
      let out := sha1Rounds ((List.range 80).zip ws) hs
      sha1Chunks rest (List.zipWith (fun x y => w32 (x + y)) hs out)

/-- SHA-1 digest of a byte string, as five 32-bit words
(the padding scheme is the same as SHA-256). -/
def sha1Digest (msg : List Byte) : List Nat :=
  let padded := sha256Pad msg
  sha1Chunks (chunksOf64 padded.length padded) sha1H0

/-- SHA-1 digest of a byte string, as a 20-byte big-endian number
(ecdsa `string_to_number(hashfunc(data).digest())`). -/
def sha1Number (msg : List Byte) : Nat :=
  bytesToNatBE (((sha1Digest msg).map (natToBytesBE 4)).flatten)

/-! ### Python `repr` of numbers and `json.dumps`

The hash pre-images of the repository are produced by
`json.dumps(data, sort_keys=True)` — with the DEFAULT separators `", "` and
`": "` — and then `str.encode()` (UTF-8).  `ensure_ascii` defaults to true,
so non-ASCII characters are `\uXXXX`-escaped.  Numeric values are floats and
ints; floats print via `repr`, which for every float whose value is a short
decimal fraction (all values appearing in this repository: amounts, fees,
Unix timestamps) is the exact decimal expansion with at least one fractional
digit.  `pyFloatRepr` reproduces that rendering for every rational whose
denominator divides a power of ten (every Python float is such a rational);
values of very large magnitude that Python would print in scientific
notation do not occur in the repository and are not modelled. -/

/-- Smallest `k` (starting from `k`, bounded by the fuel) with `den ∣ 10^k`. -/
def findPow10 (den : Nat) : Nat → Nat → Option Nat
  | k, 0 => if 10 ^ k % den = 0 then some k else none
  | k, f + 1 => if 10 ^ k % den = 0 then some k else findPow10 den (k + 1) f

/-- Python `repr` of a float-valued rational (see the section comment). -/
def pyFloatRepr (q : ℚ) : String :=
  let sign := if q.num < 0 then "-" else ""
  let numAbs := q.num.natAbs
  match findPow10 q.den 0 1200 with
  | some 0 => sign ++ toString numAbs ++ ".0"
  | some k =>
      let scaled := numAbs * 10 ^ k / q.den
      let ds := toString scaled
      let ds := String.mk (List.replicate (k + 1 - ds.length) '0') ++ ds
      let ip := String.mk (ds.data.take (ds.length - k))
      let fp := String.mk (ds.data.drop (ds.length - k))
      sign ++ ip ++ "." ++ fp
  | none => sign ++ toString numAbs ++ "/" ++ toString q.den

/-- JSON values as the repository serialises them.  The only array the
repository ever dumps is the list of transaction id strings inside a block
pre-image, so arrays are specialised to string arrays. -/
inductive JVal where
  | jstr (s : String)
  | jint (n : Int)
  | jfloat (q : ℚ)
  | jnull
  | jstrarr (xs : List String)
deriving DecidableEq

/-- Escaping of one character inside a JSON string literal, as Python
`json.dumps` with the default `ensure_ascii=True` performs it. -/
def pyJsonEscapeChar (c : Char) : String :=
  let n := c.toNat
  if c = '"' then "\\\""
  else if c = '\\' then "\\\\"
  else if c = '\n' then "\\n"
  else if c = '\r' then "\\r"
  else if c = '\t' then "\\t"
  else if n = 8 then "\\b"
  else if n = 12 then "\\f"
  else if 32 ≤ n ∧ n ≤ 126 then String.mk [c]
  else if n < 65536 then "\\u" ++ String.mk (natToHexChars 4 n)
  else
    let m := n - 65536
    "\\u" ++ String.mk (natToHexChars 4 (55296 + m / 1024)) ++
    "\\u" ++ String.mk (natToHexChars 4 (56320 + m % 1024))

/-- A JSON string literal as Python `json.dumps` renders it. -/
def pyJsonStr (s : String) : String :=
  "\"" ++ String.join (s.data.map pyJsonEscapeChar) ++ "\""

/-- Rendering of a JSON value with `json.dumps` default separators
(note the item separator `", "` inside arrays). -/
def pyJsonDumpVal : JVal → String
  | .jstr s => pyJsonStr s
  | .jint n => toString n
  | .jfloat q => pyFloatRepr q
  | .jnull => "null"
  | .jstrarr xs => "[" ++ String.intercalate ", " (xs.map pyJsonStr) ++ "]"

/-- String order on Unicode code points, as Python `sorted` compares keys. -/
def charListLe : List Char → List Char → Bool
  | [], _ => true
  | _ :: _, [] => false
  | a :: as, b :: bs =>
    if a.toNat < b.toNat then true
    else if b.toNat < a.toNat then false
    else charListLe as bs

/-- Key comparison for `sort_keys=True`. -/
def keyLe (a b : String) : Bool := charListLe a.data b.data

/-- Stable insertion into a key-sorted association list. -/
def insertByKey (x : String × JVal) : List (String × JVal) → List (String × JVal)
  | [] => [x]
  | y :: ys => if keyLe x.1 y.1 then x :: y :: ys else y :: insertByKey x ys

/-- Stable sort of an association list by key (`sort_keys=True`). -/
def sortByKey : List (String × JVal) → List (String × JVal)
  | [] => []
  | x :: xs => insertByKey x (sortByKey xs)

/-- Model of `json.dumps(d, sort_keys=True)` on a flat dict: keys sorted,
and the DEFAULT separators `", "` between items and `": "` after each key
(Python only drops the spaces when `separators=(",", ":")` is passed, which
the repository never does). -/
def pyJsonDumpsObj (items : List (String × JVal)) : String :=
  "\x7b" ++
    String.intercalate ", "
      ((sortByKey items).map (fun kv => pyJsonStr kv.1 ++ ": " ++ pyJsonDumpVal kv.2)) ++
  "\x7d"

/-- Canonical JSON as the SPECIFICATION words it (for comparison with the
source's serialisation, claim C5): keys sorted lexicographically and NO
extraneous whitespace.  This definition follows the spec's words, not the
source. -/
def specCanonicalDumpsObj (items : List (String × JVal)) : String :=
  "\x7b" ++
    String.intercalate ","
      ((sortByKey items).map (fun kv => pyJsonStr kv.1 ++ ":" ++ pyJsonDumpVal kv.2)) ++
  "\x7d"

/-! ### secp256k1 and ECDSA (model of the `ecdsa` library as the repository
uses it: `VerifyingKey.from_string(bytes, curve=SECP256k1)` followed by
`verify(signature, data)` with the library defaults, i.e. `sigdecode_string`
and SHA-1 as hash).  None of the claims depends on the curve arithmetic
itself — the claims concern the decode-failure paths — but the arithmetic is
embedded in full so that `verify_signature` is the source's function. -/

/-- The secp256k1 field prime. -/
def secpP : Nat :=
  0xfffffffffffffffffffffffffffffffffffffffffffffffffffffffefffffc2f

/-- The secp256k1 group order. -/
def secpN : Nat :=
  0xfffffffffffffffffffffffffffffffebaaedce6af48a03bbfd25e8cd0364141

/-- Generator x coordinate. -/
def secpGx : Nat :=
  0x79be667ef9dcbbac55a06295ce870b07029bfcdb2dce28d959f2815b16f81798

/-- Generator y coordinate. -/
def secpGy : Nat :=
  0x483ada7726a3c4655da4fbfc0e1108a8fd17b448a68554199c47d08ffb10d4b8

/-- Fast modular exponentiation (fuel-driven square and multiply). -/
def powModFuel : Nat → Nat → Nat → Nat → Nat
  | 0, _, _, m => 1 % m
  | f + 1, b, e, m =>
    if e = 0 then 1 % m
    else
      let h := powModFuel f (b * b % m) (e / 2) m
      if e % 2 = 1 then h * b % m else h

/-- Modular exponentiation. -/
def powMod (b e m : Nat) : Nat := powModFuel (e + 1) b e m

/-- Modular inverse for a prime modulus, via Fermat's little theorem
(`numbertheory.inverse_mod` of the ecdsa library computes the same value by
the extended Euclidean algorithm). -/
def modInv (a m : Nat) : Nat := powMod a (m - 2) m

/-- Subtraction in the secp256k1 base field. -/
def pSub (a b : Nat) : Nat := (a % secpP + secpP - b % secpP) % secpP

/-- Multiplication in the secp256k1 base field. -/
def pMul (a b : Nat) : Nat := a * b % secpP

/-- Addition in the secp256k1 base field. -/
def pAdd (a b : Nat) : Nat := (a + b) % secpP

/-- Affine point on secp256k1 (with the point at infinity). -/
inductive ECPoint where
  | inf
  | pt (x y : Nat)
deriving DecidableEq

/-- Point addition on secp256k1 (curve `y² = x³ + 7`, so `a = 0`). -/
def ecAdd : ECPoint → ECPoint → ECPoint
  | .inf, q => q
  | p, .inf => p
  | .pt x1 y1, .pt x2 y2 =>
    if x1 % secpP = x2 % secpP then
      if (y1 + y2) % secpP = 0 then .inf
      else
        let l := pMul (pMul 3 (pMul x1 x1)) (modInv (pMul 2 y1) secpP)
        let x3 := pSub (pSub (pMul l l) x1) x2
        .pt x3 (pSub (pMul l (pSub x1 x3)) y1)
    else
      let l := pMul (pSub y2 y1) (modInv (pSub x2 x1) secpP)
      let x3 := pSub (pSub (pMul l l) x1) x2
      .pt x3 (pSub (pMul l (pSub x1 x3)) y1)

/-- Fuel-driven double-and-add loop for scalar multiplication. -/
def ecMulFuel : Nat → Nat → ECPoint → ECPoint → ECPoint
  | 0, _, _, acc => acc
  | f + 1, k, p, acc =>
    if k = 0 then acc
    else ecMulFuel f (k / 2) (ecAdd p p) (if k % 2 = 1 then ecAdd acc p else acc)

/-- Scalar multiplication; 257 iterations cover every scalar below the group
order. -/
def ecMul (k : Nat) (p : ECPoint) : ECPoint := ecMulFuel 257 k p .inf

/-- The secp256k1 generator point. -/
def secpG : ECPoint := .pt secpGx secpGy

/-- Curve membership test, mod `p` as `ecdsa.ellipticcurve.CurveFp.contains_point`
computes it. -/
def onCurve (x y : Nat) : Bool :=
  pSub (pMul y y) (pAdd (pMul (pMul x x) x) 7) = 0

/-- Square root mod `p` (valid since `p ≡ 3 mod 4`); callers must check the
square. -/
def sqrtModP (a : Nat) : Nat := powMod a ((secpP + 1) / 4) secpP

/-- Model of `VerifyingKey.from_string(bytes, curve=SECP256k1)`: accepts the
64-byte raw `x‖y` form, the 65-byte `04‖x‖y` uncompressed form and the
33-byte compressed form, validating curve membership; every other input
raises `MalformedPointError`, modelled as `none`.  Coordinates are reduced
mod `p` (the library keeps them as given and reduces during arithmetic,
which is the same point). -/
def vkFromString (bs : List Byte) : Option ECPoint :=
  if bs.length = 64 then
    let x := bytesToNatBE (bs.take 32)
    let y := bytesToNatBE (bs.drop 32)
    if onCurve x y then some (.pt (x % secpP) (y % secpP)) else none
  else if bs.length = 65 then
    if bs.headD 0 = 4 then
      let tl := bs.drop 1
      let x := bytesToNatBE (tl.take 32)
      let y := bytesToNatBE (tl.drop 32)
      if onCurve x y then some (.pt (x % secpP) (y % secpP)) else none
    else none
  else if bs.length = 33 then
    let prefixByte := bs.headD 0
    if prefixByte = 2 ∨ prefixByte = 3 then
      let x := bytesToNatBE (bs.drop 1)
      let alpha := pAdd (pMul (pMul x x) x) 7
      let beta := sqrtModP alpha
      if pMul beta beta = alpha % secpP then
        some (.pt (x % secpP) (if beta % 2 = prefixByte % 2 then beta else secpP - beta))
      else none
    else none
  else none

/-- Core ECDSA verification (`ecdsa.ecdsa.Public_key.verifies`). -/
def ecdsaVerifyCore (q : ECPoint) (hashNum r s : Nat) : Bool :=
  if r < 1 ∨ secpN - 1 < r then false
  else if s < 1 ∨ secpN - 1 < s then false
  else
    let c := modInv s secpN
    let u1 := hashNum * c % secpN
    let u2 := r * c % secpN
    match ecAdd (ecMul u1 secpG) (ecMul u2 q) with
    | .inf => false
    | .pt x _ => decide (x % secpN = r)

/-- Model of `VerifyingKey.verify(signature, data)` with the library
defaults: `sigdecode_string` requires exactly 64 signature bytes (else
`MalformedSignature`, which the caller's bare `except` turns into `False`),
and the message is hashed with SHA-1 before the curve equation check. -/
def ecdsaVerifyBytes (q : ECPoint) (sig msg : List Byte) : Bool :=
  if sig.length = 64 then
    ecdsaVerifyCore q (sha1Number msg) (bytesToNatBE (sig.take 32))
      (bytesToNatBE (sig.drop 32))
  else false

/-! ### Transaction (src/core/transaction.py) -/

/-- Falsiness of an optional string (Python `not x` for `x: Optional[str]`):
true for `None` and for the empty string. -/
def isFalsyStr : Option String → Bool
  | none => true
  | some s => s = ""

/-- A transaction, with the attributes set by `Transaction.__init__`. -/
structure Transaction where
  sender : String
  receiver : String
  amount : ℚ
  fee : ℚ
  timestamp : ℚ
  signature : Option String
  public_key : Option String
  txid : String
deriving DecidableEq

/-- The `tx_data` dict built identically inside `calculate_txid`, `sign` and
`verify_signature` (insertion order as in the source; `sort_keys=True`
reorders it during dumping).  The `signature` and `txid` attributes are
absent. -/
def txData (t : Transaction) : List (String × JVal) :=
  [("sender", .jstr t.sender),
   ("receiver", .jstr t.receiver),
   ("amount", .jfloat t.amount),
   ("fee", .jfloat t.fee),
   ("timestamp", .jfloat t.timestamp),
   ("public_key", match t.public_key with | none => .jnull | some s => .jstr s)]

/-- The exact pre-image string `json.dumps(tx_data, sort_keys=True)` that
`calculate_txid` hashes and `sign`/`verify_signature` sign and verify. -/
def txPreimage (t : Transaction) : String := pyJsonDumpsObj (txData t)

/-- Model of `Transaction.calculate_txid`. -/
def Transaction.calculate_txid (t : Transaction) : String :=
  sha256Hex (utf8Bytes (txPreimage t))

/-- Model of `Transaction.__init__`.  `now` stands for `time.time()`;
`self.timestamp = timestamp or time.time()` makes both `None` and `0` fall
back to `now`.  The `txid` is computed from the other attributes at
construction time. -/
def mkTransaction (sender receiver : String) (amount fee : ℚ)
    (timestamp : Option ℚ) (signature public_key : Option String)
    (now : ℚ) : Transaction :=
  let ts := match timestamp with
    | none => now
    | some t => if t = 0 then now else t
  let base : Transaction :=
    { sender, receiver, amount, fee, timestamp := ts, signature, public_key,
      txid := "" }
  { base with txid := base.calculate_txid }

/-- A transaction dictionary as consumed by `Transaction.from_dict` and
produced by `to_dict`.  `fee`, `signature`, `public_key` and `txid` are
optional because `from_dict` reads them with `.get` (or, in the case of
`txid`, does not read them at all). -/
structure TxDict where
  sender : String
  receiver : String
  amount : ℚ
  fee : Option ℚ
  timestamp : ℚ
  signature : Option String
  txid : Option String
  public_key : Option String
deriving DecidableEq

/-- Model of `Transaction.to_dict`. -/
def Transaction.to_dict (t : Transaction) : TxDict :=
  { sender := t.sender, receiver := t.receiver, amount := t.amount,
    fee := some t.fee, timestamp := t.timestamp, signature := t.signature,
    txid := some t.txid, public_key := t.public_key }

/-- Model of `Transaction.from_dict`: rebuilds through the constructor
(missing `fee` defaults to `0.0`), so the `txid` is recomputed from the
current fields and a `txid` entry of the dict is never consulted. -/
def Transaction.from_dict (d : TxDict) (now : ℚ) : Transaction :=
  mkTransaction d.sender d.receiver d.amount (d.fee.getD 0) (some d.timestamp)
    d.signature d.public_key now

/-- Model of `Transaction.sign`.  The ecdsa library's `SigningKey.sign` is
randomised, so the produced signature hex is a parameter (`sigHex`), as is
the signing key's public key hex
(`pkHex = private_key.verifying_key.to_string().hex()`).  The method fills in
`public_key` when it is absent or empty and stores the signature; it does NOT
recompute `txid`. -/
def Transaction.sign (t : Transaction) (pkHex sigHex : String) : Transaction :=
  let pk := if isFalsyStr t.public_key then some pkHex else t.public_key
  { t with public_key := pk, signature := some sigHex }

/-- Model of `Transaction.verify_signature`.  The two bare `except:` clauses
of the source — around `VerifyingKey.from_string(bytes.fromhex(...))` and
around `pub_key.verify(bytes.fromhex(...), ...)` — are modelled by the
`Option` failure cases, each yielding `false`. -/
def Transaction.verify_signature (t : Transaction) : Bool :=
  if isFalsyStr t.signature || isFalsyStr t.public_key then false
  else
    match hexDecode (t.public_key.getD "") with
    | none => false
    | some pkBytes =>
      match vkFromString pkBytes with
      | none => false
      | some q =>
        match hexDecode (t.signature.getD "") with
        | none => false
        | some sigBytes => ecdsaVerifyBytes q sigBytes (utf8Bytes (txPreimage t))

/-- Model of `Transaction.is_valid`.  Note that the source has NO special
case for the coinbase sentinel sender: the `public_key` and signature checks
apply to every transaction. -/
def Transaction.is_valid (t : Transaction) : Bool :=
  if t.amount ≤ 0 ∨ t.fee < 0 then false
  else if t.sender = "" ∨ t.receiver = "" then false
  else if t.sender.length ≠ 34 ∨ t.receiver.length ≠ 34 then false
  else if isFalsyStr t.public_key then false
  else if t.verify_signature = false then false
  else true

/-! ### Block (src/annalink/core/block.py) -/

/-- A block, with the attributes set by `Block.__init__`. -/
structure Block where
  index : Nat
  timestamp : ℚ
  transactions : List Transaction
  previous_hash : String
  nonce : Nat
  difficulty : Nat
  hash : String
deriving DecidableEq

/-- The `block_data` dict built inside `Block.calculate_hash`: only the
transaction ids participate in the block hash pre-image. -/
def blockData (b : Block) : List (String × JVal) :=
  [("index", .jint (b.index : Int)),
   ("timestamp", .jfloat b.timestamp),
   ("transactions", .jstrarr (b.transactions.map (·.txid))),
   ("previous_hash", .jstr b.previous_hash),
   ("nonce", .jint (b.nonce : Int)),
   ("difficulty", .jint (b.difficulty : Int))]

/-- The exact pre-image string `json.dumps(block_data, sort_keys=True)`
hashed by `Block.calculate_hash`. -/
def blockPreimage (b : Block) : String := pyJsonDumpsObj (blockData b)

/-- Model of `Block.calculate_hash`. -/
def Block.calculate_hash (b : Block) : String :=
  sha256Hex (utf8Bytes (blockPreimage b))

/-- Model of `Block.__init__` (`timestamp or time.time()` as for
transactions; `hash` is computed at construction). -/
def mkBlock (index : Nat) (transactions : List Transaction)
    (previous_hash : String) (timestamp : Option ℚ) (nonce : Nat)
    (difficulty : Nat) (now : ℚ) : Block :=
  let ts := match timestamp with
    | none => now
    | some t => if t = 0 then now else t
  let base : Block :=
    { index, timestamp := ts, transactions, previous_hash, nonce, difficulty,
      hash := "" }
  { base with hash := base.calculate_hash }

/-- A block dictionary as consumed by `Block.from_dict` and produced by
`to_dict`; `difficulty` is read with `.get(…, 4)` and `hash` is never read. -/
structure BlockDict where
  index : Nat
  timestamp : ℚ
  transactions : List TxDict
  previous_hash : String
  nonce : Nat
  hash : Option String
  difficulty : Option Nat
deriving DecidableEq

/-- Model of `Block.to_dict`. -/
def Block.to_dict (b : Block) : BlockDict :=
  { index := b.index, timestamp := b.timestamp,
    transactions := b.transactions.map Transaction.to_dict,
    previous_hash := b.previous_hash, nonce := b.nonce,
    hash := some b.hash, difficulty := some b.difficulty }

/-- Model of `Block.from_dict`: rebuilds through the constructor, so `hash`
is recomputed from the reconstructed fields and a `hash` entry of the dict is
never consulted; a missing `difficulty` defaults to 4. -/
def Block.from_dict (d : BlockDict) (now : ℚ) : Block :=
  mkBlock d.index (d.transactions.map (Transaction.from_dict · now))
    d.previous_hash (some d.timestamp) d.nonce (d.difficulty.getD 4) now

/-- Python string slicing `s[:n]` (truncates at the end of the string). -/
def pyTake (n : Nat) (s : String) : String := String.mk (s.data.take n)

/-- The proof-of-work target string `'0' * d`. -/
def powTarget (d : Nat) : String := String.mk (List.replicate d '0')

/-- Model of `Block.is_valid`: recomputed hash must match the stored hash,
the PoW prefix must hold, every contained transaction must be valid (the
source has NO coinbase exemption), and when a previous block is supplied the
linkage must hold. -/
def Block.is_valid (b : Block) (previous_block : Option Block) : Bool :=
  if b.hash ≠ b.calculate_hash then false
  else if pyTake b.difficulty b.hash ≠ powTarget b.difficulty then false
  else if b.transactions.any (fun tx => !tx.is_valid) then false
  else
    match previous_block with
    | some p => b.previous_hash == p.hash
    | none => true

/-! ### Consensus (src/core/consensus.py) -/

/-- The `ProofOfWork` instance state (constructor defaults: difficulty 4,
target block time 600 s, adjustment interval 10 blocks). -/
structure ProofOfWork where
  difficulty : Nat
  target_block_time : ℚ
  adjustment_interval : Nat
deriving DecidableEq

/-- One iteration of the mining loop body:
`block.nonce += 1; block.hash = block.calculate_hash()`. -/
def bumpNonce (b : Block) : Block :=
  let b' := { b with nonce := b.nonce + 1 }
  { b' with hash := b'.calculate_hash }

/-- The mining search of `ProofOfWork.mine_block`: the current hash is tested
against the target before each increment; the 300-second wall-clock timeout
is modelled by fuel (the number of nonce increments still allowed), and
exhausting it models the raised `TimeoutError` as `none`. -/
def mineLoop (d : Nat) : Nat → Block → Option Block
  | 0, b => if pyTake d b.hash = powTarget d then some b else none
  | f + 1, b =>
    if pyTake d b.hash = powTarget d then some b else mineLoop d f (bumpNonce b)

/-- Model of `ProofOfWork.mine_block` (uses the instance difficulty, not the
block's own field). -/
def ProofOfWork.mine_block (pw : ProofOfWork) (b : Block) (fuel : Nat) :
    Option Block :=
  mineLoop pw.difficulty fuel b

/-- Model of `ProofOfWork.validate_proof` (uses the block's own difficulty). -/
def ProofOfWork.validate_proof (_pw : ProofOfWork) (b : Block) : Bool :=
  pyTake b.difficulty b.hash == powTarget b.difficulty

/-- Python slice `l[-n:]`; for `n = 0` Python yields the whole list. -/
def pyLastSlice {α : Type} (n : Nat) (l : List α) : List α :=
  if n = 0 then l else l.drop (l.length - n)

/-- Default used for the list accesses `recent_blocks[0]` and
`recent_blocks[-1]`; under the length guard of `calculate_difficulty` the
slice is never empty, so the default is never consulted. -/
def defaultBlock : Block :=
  { index := 0, timestamp := 0, transactions := [], previous_hash := "",
    nonce := 0, difficulty := 0, hash := "" }

/-- Model of `ProofOfWork.calculate_difficulty`.  When fewer than
`adjustment_interval + 1` blocks exist the current difficulty is returned;
otherwise the timestamps of the newest `adjustment_interval` blocks decide.
(Python computes `self.difficulty - 1` in `ℤ` and takes `max … 1`; `Nat`
subtraction gives the same result for every difficulty.) -/
def ProofOfWork.calculate_difficulty (pw : ProofOfWork) (blocks : List Block) :
    Nat :=
  if blocks.length < pw.adjustment_interval + 1 then pw.difficulty
  else
    let recent_blocks := pyLastSlice pw.adjustment_interval blocks
    let start_time := (recent_blocks.headD defaultBlock).timestamp
    let end_time := (recent_blocks.getLastD defaultBlock).timestamp
    let actual_time := end_time - start_time
    let expected_time := pw.target_block_time * ((pw.adjustment_interval : ℚ) - 1)
    if actual_time < expected_time / 2 then min (pw.difficulty + 1) 256
    else if actual_time > expected_time * 2 then max (pw.difficulty - 1) 1
    else pw.difficulty

/-- Model of `ProofOfWork.get_mining_reward`: halving every 210000 blocks.
(For heights below 210000 · 1075 the exact rational equals the Python float;
beyond that Python would underflow to 0.0, far outside any reachable
height.) -/
def ProofOfWork.get_mining_reward (_pw : ProofOfWork) (block_height : Nat) : ℚ :=
  let halvings := block_height / 210000
  let reward : ℚ := 50 / 2 ^ halvings
  max reward 0

/-! ### Chain manager (src/annalink/core/blockchain.py)

The `Blockchain` object owns the proof-of-work instance, the mempool, the
in-memory chain and the persistent store.  The SQLite store is modelled as
the table of saved block rows keyed by block index (`INSERT OR REPLACE`). -/

/-- The chain manager state. -/
structure Blockchain where
  pow : ProofOfWork
  pending_transactions : List Transaction
  mining_reward : ℚ
  chain : List Block
  db : List Block
deriving DecidableEq

/-- Model of `BlockchainDatabase.save_block`: insert-or-replace keyed by the
block's index. -/
def dbSaveBlock (db : List Block) (b : Block) : List Block :=
  db.filter (fun r => r.index ≠ b.index) ++ [b]

/-- Model of `Blockchain.get_latest_block` (`self.chain[-1]`; the chain is
never empty after construction, so the default is never consulted). -/
def Blockchain.get_latest_block (bc : Blockchain) : Block :=
  bc.chain.getLastD defaultBlock

/-- Model of `Blockchain.add_block`: validate against the current tip; on
success append in memory and persist. -/
def Blockchain.add_block (bc : Blockchain) (b : Block) : Bool × Blockchain :=
  if b.is_valid (some bc.get_latest_block) then
    (true, { bc with chain := bc.chain ++ [b], db := dbSaveBlock bc.db b })
  else (false, bc)

/-- The coinbase transaction and candidate block that
`Blockchain.mine_pending_transactions` constructs before mining:
`Transaction("0"*34, miner_address, reward, 0.0)` prepended to the pending
transactions, at index `len(chain)`, linked to the latest block, at the
current difficulty. -/
def candidateBlock (bc : Blockchain) (miner_address : String) (now : ℚ) :
    Block :=
  let reward := bc.pow.get_mining_reward bc.chain.length
  let coinbase_tx :=
    mkTransaction (String.mk (List.replicate 34 '0')) miner_address reward 0
      none none none now
  mkBlock bc.chain.length (coinbase_tx :: bc.pending_transactions)
    bc.get_latest_block.hash none 0 bc.pow.difficulty now

/-- Model of `Blockchain.mine_pending_transactions` (the src/annalink
variant, which mines even with an empty mempool).  The mining reward field is
updated first; a `TimeoutError` from mining returns `None` with everything
else untouched; a mined block is admitted via `add_block`, and only on
successful admission are the mempool cleared and the difficulty retargeted. -/
def Blockchain.mine_pending_transactions (bc : Blockchain)
    (miner_address : String) (now : ℚ) (fuel : Nat) :
    Option Block × Blockchain :=
  let bc := { bc with
    mining_reward := bc.pow.get_mining_reward bc.chain.length }
  let new_block := candidateBlock bc miner_address now
  match bc.pow.mine_block new_block fuel with
  | none => (none, bc)
  | some mined =>
    match bc.add_block mined with
    | (true, bc') =>
      let bc'' := { bc' with
        pending_transactions := [],
        pow := { bc'.pow with
          difficulty := bc'.pow.calculate_difficulty bc'.chain } }
      (some mined, bc'')
    | (false, bc') => (none, bc')

/-- The pairwise validation loop of `Blockchain.is_chain_valid`:
`chain[i].is_valid(chain[i-1])` for every `i ≥ 1`. -/
def chainPairsValid : List Block → Bool
  | [] => true
  | [_] => true
  | a :: b :: rest => b.is_valid (some a) && chainPairsValid (b :: rest)

/-- Model of `Blockchain.is_chain_valid`. -/
def Blockchain.is_chain_valid (bc : Blockchain) : Bool :=
  chainPairsValid bc.chain

/-- Model of `Blockchain.get_balance`: full-history scan; a sender pays
amount plus fee, a receiver gains the amount. -/
def Blockchain.get_balance (bc : Blockchain) (address : String) : ℚ :=
  bc.chain.foldl
    (fun acc b =>
      b.transactions.foldl
        (fun acc tx =>
          let acc := if tx.sender = address then acc - (tx.amount + tx.fee) else acc
          if tx.receiver = address then acc + tx.amount else acc)
        acc)
    0

/-- Modelled from the spec: `Blockchain.replace_chain` is invoked by
`BlockchainNode.handle_blocks` (src/annalink/networking/node.py) but no
implementation of it appears among the source files; §4.6 of the
specification defines it: accept only if the candidate is strictly longer
than the current chain AND the candidate is a valid chain AND it starts from
the same genesis content; on acceptance swap the in-memory chain; returns a
boolean.  Nothing else (mempool, persistent store) is touched. -/
def Blockchain.replace_chain (bc : Blockchain) (candidate : List Block) :
    Bool × Blockchain :=
  if candidate.length > bc.chain.length
      ∧ chainPairsValid candidate = true
      ∧ candidate.head? = bc.chain.head? then
    (true, { bc with chain := candidate })
  else (false, bc)

/-! ### Node message handlers (src/annalink/networking/node.py) -/

/-- Model of `BlockchainNode.handle_get_blocks`: the reply carries
`self.blockchain.chain[start_height : start_height + 50]` serialised with
`Block.to_dict` — at most 50 blocks, not 100. -/
def handle_get_blocks (chain : List Block) (start_height : Nat) :
    List BlockDict :=
  ((chain.drop start_height).take 50).map Block.to_dict

/-! ### Sample values used by concrete witnesses and counterexamples -/

/-- The 34-character `'0'` coinbase sentinel address. -/
def sentinelAddr : String := String.mk (List.replicate 34 '0')

/-- A 34-character miner/receiver address. -/
def minerAddr : String := String.mk (List.replicate 34 '1')

/-- Another 34-character address. -/
def otherAddr : String := String.mk (List.replicate 34 '2')

/-- A valid secp256k1 public key in the 64-byte raw hex form the wallets
produce (the point `0x123456789abcdef · G`). -/
def samplePkHex : String :=
  "1a1fd15fce078234aa292fc024178056bf006433c9b4bd208f59eb4c9efec95ba18af1fe46980989d3ff75bf9601121151ef46e2cfab8999408319ce8f3be725"

/-- A 64-byte hex ECDSA signature (an actual signature by the key behind
`samplePkHex`, over an unrelated message; its value is irrelevant to every
claim). -/
def sampleSigHex : String :=
  "58ad8336878c8395a66fd316f020e263e735567b74b37c54a2e54761a8429887743ae9482b13b7a9c3eb2bad39d73c337ca26e7accdaa1ea7971074b43e20ffd"

/-- A transaction built without a public key and signed afterwards — the
scenario of claim C3: `sign` fills in `public_key` and `signature` but does
not refresh `txid`. -/
def signedAfterTx : Transaction :=
  (mkTransaction minerAddr otherAddr 10 (mkRat 1 2) none none none
    1700000000).sign samplePkHex sampleSigHex

/-- A transaction whose public key was present at construction, so its
`txid` is current. -/
def currentTx : Transaction :=
  mkTransaction minerAddr otherAddr 10 (mkRat 1 2) none none
    (some samplePkHex) 1700000000

/-- A small chain-manager state: one (arbitrary) block, an empty mempool. -/
def sampleChainState : Blockchain :=
  { pow := { difficulty := 1, target_block_time := 600, adjustment_interval := 10 },
    pending_transactions := [], mining_reward := 50,
    chain := [defaultBlock], db := [defaultBlock] }

/-! ### Shared lemmas -/

/-- `calculate_txid` never reads the stored `txid`. -/
theorem calculate_txid_txid_irrel (t : Transaction) (x : String) :
    Transaction.calculate_txid { t with txid := x } = t.calculate_txid := rfl

/-- `calculate_hash` never reads the stored `hash`. -/
theorem calculate_hash_hash_irrel (b : Block) (x : String) :
    Block.calculate_hash { b with hash := x } = b.calculate_hash := rfl

/-- Any transaction whose `public_key` is `None` or empty fails
`Transaction.is_valid` (every branch of the source returns `False` for it). -/
theorem is_valid_false_of_falsy_pk (t : Transaction)
    (h : isFalsyStr t.public_key = true) : t.is_valid = false := by
  unfold Transaction.is_valid
  simp [h]

/-- The mining loop only ever changes `nonce` and `hash`: the transaction
list of a successfully mined block is that of the candidate. -/
theorem mineLoop_transactions (d : Nat) :
    ∀ (fuel : Nat) (b b' : Block), mineLoop d fuel b = some b' →
      b'.transactions = b.transactions := by
  intro fuel
  induction fuel with
  | zero =>
    intro b b' h
    unfold mineLoop at h
    split at h
    · cases h; rfl
    · cases h
  | succ f ih =>
    intro b b' h
    unfold mineLoop at h
    split at h
    · cases h; rfl
    · exact ih (bumpNonce b) b' h

/-- A block one of whose transactions is invalid fails `Block.is_valid`,
whatever previous block is supplied. -/
theorem block_invalid_of_invalid_tx (b : Block) (prev : Option Block)
    (tx : Transaction) (hmem : tx ∈ b.transactions)
    (hbad : tx.is_valid = false) : b.is_valid prev = false := by
  unfold Block.is_valid
  have hany : b.transactions.any (fun tx => !tx.is_valid) = true := by
    refine List.any_eq_true.mpr ⟨tx, hmem, ?_⟩
    simp [hbad]
  simp [hany]

/-- Unfolding of `Blockchain.mine_pending_transactions` into its
reward-update / mining / admission stages. -/
theorem mine_pending_eq (bc : Blockchain) (miner : String) (now : ℚ)
    (fuel : Nat) :
    bc.mine_pending_transactions miner now fuel =
      (match mineLoop bc.pow.difficulty fuel (candidateBlock bc miner now) with
       | none =>
           (none,
            { bc with mining_reward := bc.pow.get_mining_reward bc.chain.length })
       | some mined =>
           match
             Blockchain.add_block
               { bc with
                 mining_reward := bc.pow.get_mining_reward bc.chain.length }
               mined with
           | (true, bc') =>
               (some mined,
                { bc' with
                  pending_transactions := [],
                  pow := { bc'.pow with
                    difficulty := bc'.pow.calculate_difficulty bc'.chain } })
           | (false, bc') => (none, bc')) := rfl

/-! ### Claim C1 -/

/-- Claim C1 (code_bug): the claim states that `Transaction.is_valid`
returns true for a coinbase transaction — sender equal to the 34-character
`'0'` sentinel — carrying no signature and no public key, the signature and
public-key checks being skipped.  The source has no sentinel case: this
theorem evaluates the embedded `Transaction.is_valid` at exactly such a
coinbase (the one `mine_pending_transactions` builds, amount 50.0, fee 0.0)
and it returns `false`, because the `public_key` check applies to it. -/
theorem c1_sentinel_coinbase_rejected :
    (mkTransaction sentinelAddr minerAddr 50 0 none none none
        1700000000).sender = sentinelAddr
    ∧ (mkTransaction sentinelAddr minerAddr 50 0 none none none
        1700000000).signature = none
    ∧ (mkTransaction sentinelAddr minerAddr 50 0 none none none
        1700000000).public_key = none
    ∧ (mkTransaction sentinelAddr minerAddr 50 0 none none none
        1700000000).is_valid = false := by
  refine ⟨rfl, rfl, rfl, ?_⟩
  exact is_valid_false_of_falsy_pk _ rfl

/-! ### Claim C4 -/

/-- Claim C4 (spec-modelled `replace_chain`): for every chain-manager state
and candidate chain no longer than the current chain, `replace_chain`
returns false and the whole state — in-memory chain, mempool and persistent
store — is unchanged. -/
theorem c4_replace_chain_shorter_rejected (bc : Blockchain)
    (c : List Block) (hlen : c.length ≤ bc.chain.length) :
    bc.replace_chain c = (false, bc) := by
  unfold Blockchain.replace_chain
  rw [if_neg]
  rintro ⟨h1, -, -⟩
  omega

/-- Witness for C4 at a concrete state and empty candidate. -/
theorem c4_witness :
    ([] : List Block).length ≤ sampleChainState.chain.length
    ∧ sampleChainState.replace_chain [] = (false, sampleChainState) :=
  ⟨by decide, c4_replace_chain_shorter_rejected sampleChainState [] (by decide)⟩

/-! ### Claim C8 -/

/-- Claim C8, counterexample: the claim states that a `get_blocks` request
is answered with up to 100 blocks — exactly `min(100, chain_length − h)`
when `h` is within the chain.  On a 51-block chain with `start_height = 0`
the embedded `handle_get_blocks` replies with 50 blocks, not
`min 100 51 = 51`. -/
theorem c8_counterexample :
    (handle_get_blocks (List.replicate 51 defaultBlock) 0).length = 50
    ∧ (handle_get_blocks (List.replicate 51 defaultBlock) 0).length ≠
        min 100 ((List.replicate 51 defaultBlock).length - 0) := by
  constructor
  · decide
  · decide

/-- Claim C8 as amended: the responder replies with up to 50 blocks of its
chain starting at height `h` — exactly `min 50 (chain_length − h)` blocks
(`0` of them when `h` is beyond the chain). -/
theorem c8_up_to_50_blocks (chain : List Block) (h : Nat) :
    (handle_get_blocks chain h).length = min 50 (chain.length - h) := by
  simp [handle_get_blocks]

/-! ### Claim C10 -/

/-- Claim C10: deserialization discards stored digests and recomputes them —
`Transaction.from_dict` never consults the dict's `txid` entry and returns a
transaction whose `txid` equals its recomputed `calculate_txid`, and
`Block.from_dict` never consults the dict's `hash` entry and returns a block
whose `hash` equals its recomputed `calculate_hash`; a tampered digest is
silently replaced. -/
theorem c10_from_dict_recomputes_digests :
    (∀ (d : TxDict) (x : Option String) (now : ℚ),
        Transaction.from_dict { d with txid := x } now =
          Transaction.from_dict d now
        ∧ (Transaction.from_dict d now).txid =
            (Transaction.from_dict d now).calculate_txid)
    ∧ (∀ (d : BlockDict) (x : Option String) (now : ℚ),
        Block.from_dict { d with hash := x } now = Block.from_dict d now
        ∧ (Block.from_dict d now).hash =
            (Block.from_dict d now).calculate_hash) := by
  constructor
  · intro d x now
    refine ⟨rfl, ?_⟩
    exact (calculate_txid_txid_irrel
      (⟨d.sender, d.receiver, d.amount, d.fee.getD 0,
        (if d.timestamp = 0 then now else d.timestamp), d.signature,
        d.public_key, ""⟩ : Transaction) _).symm
  · intro d x now
    refine ⟨rfl, ?_⟩
    exact (calculate_hash_hash_irrel
      (⟨d.index, (if d.timestamp = 0 then now else d.timestamp),
        d.transactions.map (Transaction.from_dict · now), d.previous_hash,
        d.nonce, d.difficulty.getD 4, ""⟩ : Block) _).symm

/-! ### Claim C6 -/

/-- The head of Python's `blocks[-k:]` (for `k ≥ 1`) is the block at index
`length − k`. -/
theorem pyLastSlice_headD (k : Nat) (l : List Block) (hk : 1 ≤ k) :
    (pyLastSlice k l).headD defaultBlock = l.getD (l.length - k) defaultBlock := by
  unfold pyLastSlice
  rw [if_neg (by omega)]
  simp [List.headD_eq_head?_getD, List.head?_drop, List.getD_eq_getElem?_getD]

/-- The last element of Python's `blocks[-k:]` (for `1 ≤ k ≤ length`) is the
last block of the chain. -/
theorem pyLastSlice_getLastD (k : Nat) (l : List Block) (hk : 1 ≤ k)
    (hlen : k ≤ l.length) :
    (pyLastSlice k l).getLastD defaultBlock =
      l.getD (l.length - 1) defaultBlock := by
  unfold pyLastSlice
  rw [if_neg (by omega)]
  rw [List.getLastD_eq_getLast?, List.getLast?_eq_getElem?,
    List.getD_eq_getElem?_getD, List.getElem?_drop]
  congr 2
  rw [List.length_drop]
  omega

/-- The retarget branch of `calculate_difficulty`, with the slice endpoints
still folded. -/
theorem calc_difficulty_unfold (pw : ProofOfWork) (blocks : List Block)
    (h : ¬ blocks.length < pw.adjustment_interval + 1) :
    pw.calculate_difficulty blocks =
      (let actual :=
        ((pyLastSlice pw.adjustment_interval blocks).getLastD defaultBlock).timestamp -
        ((pyLastSlice pw.adjustment_interval blocks).headD defaultBlock).timestamp
       let expected := pw.target_block_time * ((pw.adjustment_interval : ℚ) - 1)
       if actual < expected / 2 then min (pw.difficulty + 1) 256
       else if actual > expected * 2 then max (pw.difficulty - 1) 1
       else pw.difficulty) := by
  unfold ProofOfWork.calculate_difficulty
  rw [if_neg h]

/-- Claim C6: `calculate_difficulty` returns the current difficulty when the
chain has at most `adjustment_interval` blocks; otherwise, with
`Δ = last.timestamp − first.timestamp` over the most recent
`adjustment_interval` blocks and
`expected = target_block_time × (adjustment_interval − 1)`, it returns
`difficulty + 1` capped at 256 when `Δ < expected/2`, `difficulty − 1`
floored at 1 when `Δ > expected × 2`, and the current difficulty otherwise.
(The hypotheses pin the configuration to what the spec allows: a positive
adjustment interval and a non-negative target block time, making the three
cases mutually exclusive.) -/
theorem c6_calculate_difficulty_cases (pw : ProofOfWork) (blocks : List Block)
    (hk : 1 ≤ pw.adjustment_interval) (htgt : 0 ≤ pw.target_block_time) :
    (blocks.length ≤ pw.adjustment_interval →
        pw.calculate_difficulty blocks = pw.difficulty)
    ∧ (pw.adjustment_interval < blocks.length →
        (((blocks.getD (blocks.length - 1) defaultBlock).timestamp -
            (blocks.getD (blocks.length - pw.adjustment_interval)
              defaultBlock).timestamp <
          pw.target_block_time * ((pw.adjustment_interval : ℚ) - 1) / 2 →
            pw.calculate_difficulty blocks = min (pw.difficulty + 1) 256)
        ∧ (pw.target_block_time * ((pw.adjustment_interval : ℚ) - 1) * 2 <
            (blocks.getD (blocks.length - 1) defaultBlock).timestamp -
              (blocks.getD (blocks.length - pw.adjustment_interval)
                defaultBlock).timestamp →
            pw.calculate_difficulty blocks = max (pw.difficulty - 1) 1)
        ∧ (pw.target_block_time * ((pw.adjustment_interval : ℚ) - 1) / 2 ≤
            (blocks.getD (blocks.length - 1) defaultBlock).timestamp -
              (blocks.getD (blocks.length - pw.adjustment_interval)
                defaultBlock).timestamp →
            (blocks.getD (blocks.length - 1) defaultBlock).timestamp -
              (blocks.getD (blocks.length - pw.adjustment_interval)
                defaultBlock).timestamp ≤
              pw.target_block_time * ((pw.adjustment_interval : ℚ) - 1) * 2 →
            pw.calculate_difficulty blocks = pw.difficulty))) := by
  constructor
  · intro hle
    unfold ProofOfWork.calculate_difficulty
    rw [if_pos (by omega)]
  · intro hlt
    have hhead := pyLastSlice_headD pw.adjustment_interval blocks hk
    have hlast := pyLastSlice_getLastD pw.adjustment_interval blocks hk (by omega)
    rw [calc_difficulty_unfold pw blocks (by omega)]
    simp only [hhead, hlast]
    refine ⟨?_, ?_, ?_⟩
    · intro h1
      rw [if_pos h1]
    · intro h2
      have hcast : (1 : ℚ) ≤ (pw.adjustment_interval : ℚ) := by exact_mod_cast hk
      have hexp : 0 ≤ pw.target_block_time * ((pw.adjustment_interval : ℚ) - 1) := by
        nlinarith
      rw [if_neg (by push_neg; nlinarith), if_pos h2]
    · intro h3 h4
      rw [if_neg (by push_neg; exact h3), if_neg (by push_neg; exact h4)]

/-- Witness for C6: with the default configuration (difficulty 4, target
600 s, interval 10) and an 11-block chain with timestamps 0…10 (so
`Δ = 10 − 1 = 9 < 5400/2`), the difficulty rises to `min 5 256`. -/
theorem c6_witness :
    ProofOfWork.calculate_difficulty ⟨4, 600, 10⟩
        ((List.range 11).map (fun i => { defaultBlock with timestamp := (i : ℚ) })) =
      min (4 + 1) 256 := by
  have h := c6_calculate_difficulty_cases ⟨4, 600, 10⟩
    ((List.range 11).map (fun i => { defaultBlock with timestamp := (i : ℚ) }))
    (by decide) (by with_unfolding_all decide)
  exact (h.2 (by decide)).1 (by with_unfolding_all decide)

/-! ### Claim C9 -/

/-- Claim C9: `verify_signature` is total — in this embedding a function
into `Bool`, the source's bare `except:` clauses becoming the `none` cases
of the fallible decoding steps — and every decoding failure yields `false`:
a missing (or empty) signature or public key, a non-hex public-key string,
public-key bytes that do not decode to a curve point, and a non-hex
signature string all make it return `false`. -/
theorem c9_verify_signature_decode_failure (t : Transaction)
    (hfail :
      isFalsyStr t.signature = true ∨ isFalsyStr t.public_key = true
      ∨ hexDecode (t.public_key.getD "") = none
      ∨ (∃ bs, hexDecode (t.public_key.getD "") = some bs ∧
          vkFromString bs = none)
      ∨ hexDecode (t.signature.getD "") = none) :
    t.verify_signature = false := by
  unfold Transaction.verify_signature
  rcases hfail with h | h | h | ⟨bs, hb, hv⟩ | h
  · simp [h]
  · simp [h]
  · simp [h]
  · simp [hb, hv]
  · rcases hpk : hexDecode (t.public_key.getD "") with _ | bs
    · simp [hpk]
    · rcases hvk : vkFromString bs with _ | q
      · simp [hpk, hvk]
      · simp [hpk, hvk, h]

/-- Witness for C9: a transaction whose public key is the non-hex string
`"zz"` is rejected by `verify_signature`. -/
theorem c9_witness :
    hexDecode ((some "zz").getD "") = none
    ∧ Transaction.verify_signature
        { sender := "s", receiver := "r", amount := 1, fee := 0,
          timestamp := 1, signature := some "aa", public_key := some "zz",
          txid := "" } = false :=
  ⟨by decide,
   c9_verify_signature_decode_failure _
     (Or.inr (Or.inr (Or.inl (by decide))))⟩

/-! ### Claim C7 -/

/-- Claim C7: when the proof-of-work search is aborted by its timeout,
`mine_pending_transactions` returns no block and the mempool is preserved
exactly as it was before the call (the resulting state differs from the
input state only in the `mining_reward` attribute, which the source updates
before mining starts). -/
theorem c7_timeout_preserves_mempool (bc : Blockchain) (miner : String)
    (now : ℚ) (fuel : Nat)
    (htimeout :
      mineLoop bc.pow.difficulty fuel (candidateBlock bc miner now) = none) :
    (bc.mine_pending_transactions miner now fuel).1 = none
    ∧ (bc.mine_pending_transactions miner now fuel).2.pending_transactions =
        bc.pending_transactions
    ∧ (bc.mine_pending_transactions miner now fuel).2 =
        { bc with mining_reward := bc.pow.get_mining_reward bc.chain.length } := by
  rw [mine_pending_eq, htimeout]
  exact ⟨rfl, rfl, rfl⟩

/-- A pending transaction sitting in the mempool of the C7 witness state
(a plain record; its digest fields are stored strings, as they would be
after deserialization). -/
def pendingSampleTx : Transaction :=
  { sender := minerAddr, receiver := otherAddr, amount := 3, fee := 0,
    timestamp := 5, signature := some sampleSigHex,
    public_key := some samplePkHex, txid := "deadbeef" }

/-- A chain-manager state whose difficulty 65 makes every mining attempt
time out: a 64-character hex digest can never have 65 leading zeros. -/
def timeoutState : Blockchain :=
  { pow := { difficulty := 65, target_block_time := 600, adjustment_interval := 10 },
    pending_transactions := [pendingSampleTx], mining_reward := 50,
    chain := [defaultBlock], db := [defaultBlock] }

set_option maxRecDepth 40000 in
/-- Witness for C7: at difficulty 65 with zero fuel the search times out,
no block is returned and the one-element mempool is intact. -/
theorem c7_witness :
    mineLoop timeoutState.pow.difficulty 0
        (candidateBlock timeoutState minerAddr 0) = none
    ∧ (timeoutState.mine_pending_transactions minerAddr 0 0).1 = none
    ∧ (timeoutState.mine_pending_transactions minerAddr 0 0).2.pending_transactions =
        timeoutState.pending_transactions := by
  have h : mineLoop timeoutState.pow.difficulty 0
      (candidateBlock timeoutState minerAddr 0) = none := by
    with_unfolding_all decide
  have hc := c7_timeout_preserves_mempool timeoutState minerAddr 0 0 h
  exact ⟨h, hc.1, hc.2.1⟩

/-! ### Claim C2 -/

/-- Claim C2 (code_bug): the claim states that on a fresh chain (genesis
only) at difficulty 1 with an empty mempool, `mine_pending_transactions`
with a 34-character miner address succeeds and the chain grows to length 2
with a coinbase paying 50.0.  In the source this can never happen: the
coinbase the miner builds has no public key, so `Transaction.is_valid`
rejects it, `Block.is_valid` rejects every mined block, `add_block` refuses
it, and `mine_pending_transactions` returns `None` with the chain
unchanged — whatever the timestamp and however much mining fuel is
available. -/
theorem c2_mining_never_extends_fresh_chain (bc : Blockchain) (miner : String)
    (now : ℚ) (fuel : Nat) (hchain : bc.chain.length = 1)
    (hdiff : bc.pow.difficulty = 1) (hpool : bc.pending_transactions = [])
    (hminer : miner.length = 34) :
    (bc.mine_pending_transactions miner now fuel).1 = none
    ∧ (bc.mine_pending_transactions miner now fuel).2.chain = bc.chain := by
  rw [mine_pending_eq]
  cases hm : mineLoop bc.pow.difficulty fuel (candidateBlock bc miner now) with
  | none => exact ⟨rfl, rfl⟩
  | some mined =>
    have htx : mined.transactions = (candidateBlock bc miner now).transactions :=
      mineLoop_transactions bc.pow.difficulty fuel _ mined hm
    have hinv :
        (mkTransaction (String.mk (List.replicate 34 '0')) miner
          (bc.pow.get_mining_reward bc.chain.length) 0 none none none
          now).is_valid = false :=
      is_valid_false_of_falsy_pk _ rfl
    have hmem :
        mkTransaction (String.mk (List.replicate 34 '0')) miner
          (bc.pow.get_mining_reward bc.chain.length) 0 none none none now
        ∈ mined.transactions := by
      rw [htx]
      exact List.mem_cons_self _ _
    have hblock :
        ∀ prev, mined.is_valid prev = false :=
      fun prev => block_invalid_of_invalid_tx mined prev _ hmem hinv
    have hadd :
        Blockchain.add_block
          { bc with mining_reward := bc.pow.get_mining_reward bc.chain.length }
          mined =
        (false,
         { bc with mining_reward := bc.pow.get_mining_reward bc.chain.length }) := by
      unfold Blockchain.add_block
      rw [hblock]
      simp
    simp only [hadd]
    exact ⟨trivial, trivial⟩

/-- Witness for C2 at a concrete fresh one-block state, miner `'1'*34`. -/
theorem c2_witness :
    sampleChainState.chain.length = 1
    ∧ sampleChainState.pow.difficulty = 1
    ∧ sampleChainState.pending_transactions = []
    ∧ minerAddr.length = 34
    ∧ (sampleChainState.mine_pending_transactions minerAddr 0 0).1 = none
    ∧ (sampleChainState.mine_pending_transactions minerAddr 0 0).2.chain =
        sampleChainState.chain := by
  have h := c2_mining_never_extends_fresh_chain sampleChainState minerAddr 0 0
    rfl rfl rfl (by decide)
  exact ⟨rfl, rfl, rfl, by decide, h.1, h.2⟩

/-! ### Claim C3 -/

set_option maxRecDepth 40000 in
/-- Claim C3, counterexample: the claim states that
`Transaction.from_dict(t.to_dict())` equals `t` by value for every `t`,
including one constructed without a public key and then signed.  For exactly
that transaction (`signedAfterTx`) the round-trip differs: `sign` set
`public_key` without refreshing `txid`, so deserialization recomputes a
`txid` over the now-present public key, different from the stored one. -/
theorem c3_counterexample :
    Transaction.from_dict signedAfterTx.to_dict 1700000000 ≠ signedAfterTx
    ∧ (Transaction.from_dict signedAfterTx.to_dict 1700000000).txid ≠
        signedAfterTx.txid := by
  have htx : (Transaction.from_dict signedAfterTx.to_dict 1700000000).txid ≠
      signedAfterTx.txid := by
    with_unfolding_all decide
  exact ⟨fun h => htx (congrArg Transaction.txid h), htx⟩

/-- Claim C3 as amended: for every transaction whose stored `txid` agrees
with its current fields — in particular any transaction not mutated after
construction, such as one built with its public key already set — and whose
timestamp is non-zero (every constructed transaction: `__init__` replaces a
falsy timestamp with `time.time()`), `Transaction.from_dict(t.to_dict())`
equals `t` by value with the `txid` rederived identically; but a transaction
constructed without a public key and then signed carries a stale `txid`, and
its round-trip differs exactly there. -/
theorem c3_round_trip_of_current_txid (t : Transaction) (now : ℚ)
    (hts : t.timestamp ≠ 0) (htxid : t.txid = t.calculate_txid) :
    Transaction.from_dict t.to_dict now = t := by
  rcases t with ⟨s, r, a, f, ts, sig, pk, tx⟩
  simp only [Transaction.from_dict, Transaction.to_dict, mkTransaction] at *
  rw [if_neg hts]
  simp only [Transaction.mk.injEq, Option.getD_some, true_and]
  exact (htxid.trans
    (calculate_txid_txid_irrel ⟨s, r, a, f, ts, sig, pk, ""⟩ tx)).symm

set_option maxRecDepth 40000 in
/-- Witness for C3: a transaction constructed with its public key present
round-trips by value. -/
theorem c3_witness :
    currentTx.timestamp ≠ 0
    ∧ Transaction.from_dict currentTx.to_dict 5 = currentTx := by
  have h1 : currentTx.timestamp ≠ 0 := by with_unfolding_all decide
  exact ⟨h1, c3_round_trip_of_current_txid currentTx 5 h1 rfl⟩

/-! ### Claim C5 -/

/-- The canonical transaction pre-image as the SPECIFICATION words it
(whitespace-free, sorted keys, signature excluded): this follows the spec's
words, to be compared with the source's `txPreimage`. -/
def specCanonicalTxPreimage (t : Transaction) : String :=
  specCanonicalDumpsObj (txData t)

set_option maxRecDepth 40000 in
/-- Claim C5, counterexample: the claim states that the hashed byte sequence
is canonical JSON with no extraneous whitespace.  For a concrete transaction
the source's pre-image differs from the whitespace-free canonical form and
visibly contains space characters: `json.dumps` is called without
`separators`, so Python emits `", "` and `": "`. -/
theorem c5_counterexample :
    txPreimage currentTx ≠ specCanonicalTxPreimage currentTx
    ∧ (txPreimage currentTx).data.contains ' ' = true := by
  constructor
  · with_unfolding_all decide
  · with_unfolding_all decide

set_option maxRecDepth 40000 in
set_option maxHeartbeats 1000000 in
/-- Claim C5 as amended: the byte sequence hashed for every transaction txid
and every block hash is the UTF-8 encoding of `json.dumps(…, sort_keys=True)`
with Python's DEFAULT separators — keys sorted lexicographically but with a
space after every `:` and `,` (not whitespace-free).  The transaction
pre-image covers exactly the six fields `amount`, `fee`, `public_key`,
`receiver`, `sender`, `timestamp` (in that sorted order) and never depends on
the signature; the block pre-image covers exactly `difficulty`, `index`,
`nonce`, `previous_hash`, `timestamp` and the contained transaction ids. -/
theorem c5_preimage_characterisation :
    (∀ t : Transaction,
        txPreimage t =
          "\x7b" ++ String.intercalate ", "
            ["\"amount\": " ++ pyFloatRepr t.amount,
             "\"fee\": " ++ pyFloatRepr t.fee,
             "\"public_key\": " ++ pyJsonDumpVal
               (match t.public_key with
                | none => JVal.jnull
                | some s => JVal.jstr s),
             "\"receiver\": " ++ pyJsonStr t.receiver,
             "\"sender\": " ++ pyJsonStr t.sender,
             "\"timestamp\": " ++ pyFloatRepr t.timestamp] ++ "\x7d")
    ∧ (∀ (t : Transaction) (s : Option String),
        txPreimage { t with signature := s } = txPreimage t)
    ∧ (∀ t : Transaction,
        t.calculate_txid = sha256Hex (utf8Bytes (txPreimage t)))
    ∧ (∀ b : Block,
        blockPreimage b =
          "\x7b" ++ String.intercalate ", "
            ["\"difficulty\": " ++ toString (b.difficulty : Int),
             "\"index\": " ++ toString (b.index : Int),
             "\"nonce\": " ++ toString (b.nonce : Int),
             "\"previous_hash\": " ++ pyJsonStr b.previous_hash,
             "\"timestamp\": " ++ pyFloatRepr b.timestamp,
             "\"transactions\": " ++
               ("[" ++ String.intercalate ", "
                 ((b.transactions.map (fun tx => tx.txid)).map pyJsonStr) ++ "]")] ++
          "\x7d")
    ∧ (∀ b : Block,
        b.calculate_hash = sha256Hex (utf8Bytes (blockPreimage b))) :=
  ⟨fun _ => rfl, fun _ _ => rfl, fun _ => rfl, fun _ => rfl, fun _ => rfl⟩

end Annalink
